import Mathlib

/-
Verification of the configuration-discovery and API-assembly pipeline of the
generic controller binding (src/src/controller-binding.c).

The C file is embedded shallowly: host-runtime collaborators (verb
registration, configuration search, metadata loading, API creation) are
parameters of the embedded functions, and the side effects the binding
performs on the host API are recorded as an explicit event trace.
-/

/-- Modelled from the spec: the generic module-load failure code ERROR comes
from a header that is not part of the sources here; the spec describes it as
a single generic failure code, represented as -1. -/
def ERROR : Int := -1

/-- A parsed configuration document as used by the binding: the api field is
a nullable string (its absence is checked), info a description string.
Mirrors the fields of CtlConfigT that controller-binding.c reads. -/
structure CtlConfigT where
  api : Option String
  info : String
deriving DecidableEq

/-- Side effects the binding performs on a host API handle, in order. -/
inductive ApiEvent where
  | addVerb (name : String)
  | sectionLoad (key : String)
  | onEvent
  | onInit
  | seal
deriving DecidableEq

/-- The section dispatch table of controller-binding.c (ctrlSections): JSON
section keys in their fixed table order, NULL sentinel dropped. -/
def ctrlSections : List String := ["plugins", "controls", "events", "onload"]

/-- The static verb table of controller-binding.c (CtrlApiVerbs):
(verb, info) pairs, NULL sentinel dropped. -/
def CtrlApiVerbs : List (String × String) :=
  [("ping-global", "ping test for API"),
   ("auth", "Authenticate session to raise Level Of Assurance of the session")]

/-- CtrlLoadStaticVerbs: iterate the static verb table, accumulate the sum of
the host add-verb results (errcount), recording one addVerb event per entry.
The host outcome of afb_api_add_verb is the parameter addVerb. -/
def CtrlLoadStaticVerbs (addVerb : String → Int) : Int × List ApiEvent :=
  CtrlApiVerbs.foldl
    (fun acc v => (acc.1 + addVerb v.1, acc.2 ++ [ApiEvent.addVerb v.1]))
    (0, [])

/-- One fold step of the section dispatcher: if the table key is present in
the document sections, invoke its loader (adding its error count) and record
the dispatch event; otherwise leave the accumulator unchanged. -/
def sectionStep (doc : List String) (loaders : String → Int)
    (acc : Int × List ApiEvent) (key : String) : Int × List ApiEvent :=
  if key ∈ doc then (acc.1 + loaders key, acc.2 ++ [ApiEvent.sectionLoad key])
  else acc

/-- Modelled from the spec: CtlLoadSections is implemented in the controller
library, which is not among the sources here. Per the spec it iterates the
section table in its fixed order and, for each entry whose key exists in the
document sections, invokes the associated loader, accumulating the sum of
the error signals; unrecognized document keys invoke no loader. The document
is represented by the list of its section keys, each loader outcome by the
parameter loaders. -/
def CtlLoadSections (doc : List String) (loaders : String → Int) :
    Int × List ApiEvent :=
  ctrlSections.foldl (sectionStep doc loaders) (0, [])

/-- Result of the pre-init assembly callback: its integer return value, the
ordered trace of effects applied to the API handle, and whether the config
was stored as the user data of the handle. -/
structure LoadOneResult where
  ret : Int
  events : List ApiEvent
  userdataSet : Bool
deriving DecidableEq

/-- CtrlLoadOneApi: store the config as the api user data, register the
static verbs; if that reported a nonzero error count, return ERROR at once;
otherwise dispatch the sections, register the event handler and the init
hook, seal the api and return the section error aggregate. -/
def CtrlLoadOneApi (doc : List String) (addVerb : String → Int)
    (loaders : String → Int) : LoadOneResult :=
  let sv := CtrlLoadStaticVerbs addVerb
  if sv.1 ≠ 0 then
    { ret := ERROR, events := sv.2, userdataSet := true }
  else
    let ls := CtlLoadSections doc loaders
    { ret := ls.1,
      events := sv.2 ++ ls.2 ++ [ApiEvent.onEvent, ApiEvent.onInit, ApiEvent.seal],
      userdataSet := true }

/-- A host API handle as seen by the deferred init hook: it carries the user
data slot, which may or may not hold a configuration document. -/
structure ApiHandle where
  userdata : Option CtlConfigT
deriving DecidableEq

/-- Result of the deferred init hook: its return value and the document it
passed to CtlConfigExec, if any. -/
structure InitResult where
  ret : Int
  executed : Option CtlConfigT

/-- CtrlInitOneApi: return -1 on a null api handle, -2 when the handle has no
associated config in its user data; otherwise run CtlConfigExec (the host
collaborator exec) on the config re-read from the handle. -/
def CtrlInitOneApi (api : Option ApiHandle) (exec : CtlConfigT → Int) :
    InitResult :=
  match api with
  | none => { ret := -1, executed := none }
  | some a =>
    match a.userdata with
    | none => { ret := -2, executed := none }
    | some cfg => { ret := exec cfg, executed := some cfg }

/-- Outcome of splitting a C string at its last slash, as rindex does:
ub stands for the undefined behaviour of using a NULL result, tooShort for
the early ERROR return, ok carries the rewritten application root. -/
inductive RootDir where
  | ub
  | tooShort
  | ok (dir : List Char)
deriving DecidableEq

/-- rindex(s, slash) expressed as a split: returns the part before the last
slash and the suffix starting at (and including) that slash; none when the
string has no slash. -/
def rindexSplit : List Char → Option (List Char × List Char)
  | [] => none
  | c :: cs =>
    match rindexSplit cs with
    | some (pre, suf) => some (c :: pre, suf)
    | none => if c = '/' then some ([], c :: cs) else none

/-- The application-root derivation of afbBindingEntry: rindex to the last
slash (NULL result is undefined behaviour, modelled as ub); if the suffix
from the slash on has fewer than 3 characters, the entry returns ERROR
(tooShort); otherwise the two characters after the slash are overwritten
with dots and the string is cut there, keeping the slash. -/
def deriveRootDir (p : List Char) : RootDir :=
  match rindexSplit p with
  | none => RootDir.ub
  | some (pre, suf) =>
    if suf.length < 3 then RootDir.tooShort
    else RootDir.ok (pre ++ suf.take 1 ++ ['.', '.'])

/-- Structured diagnostics emitted by afbBindingEntry on its error paths. -/
inductive Diag where
  | notFound (binder dirList : String)
  | invalidConfig (path : String)
  | apiMissing (path : String)
  | creationFailed
deriving DecidableEq

/-- The message text of each diagnostic, following the format strings of the
AFB_API_ERROR calls in afbBindingEntry. -/
def Diag.render : Diag → String
  | Diag.notFound binder dirList =>
      "CtlPreInit: No " ++ binder ++ "* config found in " ++ dirList ++ " "
  | Diag.invalidConfig p => "No valid control config file in:\n-- " ++ p
  | Diag.apiMissing p => "API Missing from metadata in:\n-- " ++ p
  | Diag.creationFailed => "API creation failed"

/-- Inputs of a module load: the binding-path entry of the host settings,
the environment override directory list, the binding root directory, the
compiled-in fallback directory, the binder name, and the host collaborators:
configuration search over a directory list, metadata loading, and whether
API creation with a given name succeeds. -/
structure EntryEnv where
  bindingPath : Option String
  envDirList : Option String
  bindingRootDir : String
  controlConfigPath : String
  binderName : String
  search : String → Option String
  loadMeta : String → Option CtlConfigT
  newApiOk : String → Bool

/-- Outcome of a module load: the entry return value, the composed directory
list if composition was reached, the error diagnostics emitted, and whether
the host received an API-creation request. -/
structure EntryResult where
  ret : Int
  dirList : Option String
  diags : List Diag
  apiRequested : Bool
deriving DecidableEq

/-- The two snprintf compositions of afbBindingEntry: with an environment
override the order is override list, application root, binding root dir,
compiled-in fallback; without it the order is binding root dir, application
root, fallback; colon separated, nothing deduplicated. -/
def composeDirList (envDirList : Option String)
    (rootDir bindingRootDir fallback : String) : String :=
  match envDirList with
  | some e => e ++ ":" ++ rootDir ++ ":" ++ bindingRootDir ++ ":" ++ fallback
  | none => bindingRootDir ++ ":" ++ rootDir ++ ":" ++ fallback

/-- The tail of afbBindingEntry once the directory list is composed: search
it for the configuration file (ERROR plus a notFound diagnostic naming the
full list when none is found), load the metadata (ERROR plus an
invalidConfig diagnostic when parsing fails), check the api name (ERROR
plus an apiMissing diagnostic when absent), and ask the host to create the
API (ERROR plus a creationFailed diagnostic when that fails, 0 otherwise). -/
def entryWithDirList (env : EntryEnv) (dirList : String) : EntryResult :=
  match env.search dirList with
  | none =>
    { ret := ERROR, dirList := some dirList,
      diags := [Diag.notFound env.binderName dirList], apiRequested := false }
  | some configPath =>
    match env.loadMeta configPath with
    | none =>
      { ret := ERROR, dirList := some dirList,
        diags := [Diag.invalidConfig configPath], apiRequested := false }
    | some cfg =>
      match cfg.api with
      | none =>
        { ret := ERROR, dirList := some dirList,
          diags := [Diag.apiMissing configPath], apiRequested := false }
      | some apiName =>
        if env.newApiOk apiName then
          { ret := 0, dirList := some dirList, diags := [],
            apiRequested := true }
        else
          { ret := ERROR, dirList := some dirList,
            diags := [Diag.creationFailed], apiRequested := true }

/-- The part of afbBindingEntry following the application-root derivation:
compose the directory list from the environment override, the derived
application root, the binding root dir and the compiled-in fallback, then
run the search-load-create tail on it. -/
def entryAfterRoot (env : EntryEnv) (rootDir : String) : EntryResult :=
  entryWithDirList env
    (composeDirList env.envDirList rootDir env.bindingRootDir
      env.controlConfigPath)

/-- afbBindingEntry: when the settings carry a binding path, derive the
application root from it (undefined behaviour when the path has no slash,
immediate ERROR with nothing composed when the suffix at the last slash is
shorter than 3 characters); without a binding-path entry the application
root is the empty string; then run the rest of the entry. -/
def afbBindingEntry (env : EntryEnv) : Option EntryResult :=
  match env.bindingPath with
  | some p =>
    match deriveRootDir p.toList with
    | RootDir.ub => none
    | RootDir.tooShort =>
      some { ret := ERROR, dirList := none, diags := [], apiRequested := false }
    | RootDir.ok root => some (entryAfterRoot env (String.mk root))
  | none => some (entryAfterRoot env "")

/-! Helper lemmas about the embedded functions. -/

lemma rindexSplit_none_iff (p : List Char) : rindexSplit p = none ↔ '/' ∉ p := by
  induction p with
  | nil => simp [rindexSplit]
  | cons c cs ih =>
    simp only [rindexSplit, List.mem_cons]
    cases h : rindexSplit cs with
    | some pr =>
      have hcs : '/' ∈ cs := by
        by_contra hn
        rw [← ih] at hn
        rw [h] at hn
        exact Option.noConfusion hn
      simp [hcs]
    | none =>
      have hcs : '/' ∉ cs := ih.mp h
      by_cases hc : c = '/'
      · simp [hc]
      · have hc2 : ¬ '/' = c := fun hh => hc hh.symm
        simp [hc, hcs, hc2]

lemma rindexSplit_spec (p pre suf : List Char)
    (h : rindexSplit p = some (pre, suf)) :
    p = pre ++ suf ∧ ∃ t, suf = '/' :: t ∧ '/' ∉ t := by
  induction p generalizing pre suf with
  | nil => simp [rindexSplit] at h
  | cons c cs ih =>
    rw [rindexSplit] at h
    cases hcs : rindexSplit cs with
    | some pr =>
      rw [hcs] at h
      obtain ⟨pre2, suf2⟩ := pr
      simp only [Option.some.injEq, Prod.mk.injEq] at h
      obtain ⟨hpre, hsuf⟩ := h
      obtain ⟨hp, t, ht, hnt⟩ := ih pre2 suf2 hcs
      subst hpre hsuf
      exact ⟨by rw [hp]; rfl, t, ht, hnt⟩
    | none =>
      rw [hcs] at h
      by_cases hc : c = '/'
      · rw [if_pos hc] at h
        simp only [Option.some.injEq, Prod.mk.injEq] at h
        obtain ⟨hpre, hsuf⟩ := h
        subst hpre hsuf
        exact ⟨rfl, cs, by rw [hc], (rindexSplit_none_iff cs).mp hcs⟩
      · rw [if_neg hc] at h
        exact Option.noConfusion h

lemma sections_foldl (table doc : List String) (loaders : String → Int)
    (acc : Int × List ApiEvent) :
    table.foldl (sectionStep doc loaders) acc =
      (acc.1 + ((table.filter (fun k => k ∈ doc)).map loaders).sum,
       acc.2 ++ (table.filter (fun k => k ∈ doc)).map ApiEvent.sectionLoad) := by
  induction table generalizing acc with
  | nil => simp
  | cons k ks ih =>
    simp only [List.foldl_cons, List.filter_cons]
    by_cases hk : k ∈ doc
    · rw [ih]
      simp [sectionStep, hk, add_assoc]
    · rw [ih]
      simp [sectionStep, hk]

lemma ctlLoadSections_eq (doc : List String) (loaders : String → Int) :
    CtlLoadSections doc loaders =
      (((ctrlSections.filter (fun k => k ∈ doc)).map loaders).sum,
       (ctrlSections.filter (fun k => k ∈ doc)).map ApiEvent.sectionLoad) := by
  rw [CtlLoadSections, sections_foldl]
  simp

lemma ctrlLoadStaticVerbs_eq (addVerb : String → Int) :
    CtrlLoadStaticVerbs addVerb =
      (addVerb "ping-global" + addVerb "auth",
       [ApiEvent.addVerb "ping-global", ApiEvent.addVerb "auth"]) := by
  simp [CtrlLoadStaticVerbs, CtrlApiVerbs, add_assoc]

lemma entryWithDirList_dirList (env : EntryEnv) (d : String) :
    (entryWithDirList env d).dirList = some d := by
  unfold entryWithDirList
  repeat' split
  all_goals rfl

lemma afbBindingEntry_cases (env : EntryEnv) (r : EntryResult)
    (h : afbBindingEntry env = some r) :
    r = { ret := ERROR, dirList := none, diags := [], apiRequested := false } ∨
    ∃ root, r = entryAfterRoot env root := by
  unfold afbBindingEntry at h
  cases hbp : env.bindingPath with
  | none =>
    simp only [hbp, Option.some.injEq] at h
    exact Or.inr ⟨"", h.symm⟩
  | some p =>
    simp only [hbp] at h
    cases hd : deriveRootDir p.toList with
    | ub =>
      rw [hd] at h
      exact Option.noConfusion h
    | tooShort =>
      rw [hd, Option.some.injEq] at h
      exact Or.inl h.symm
    | ok root =>
      rw [hd, Option.some.injEq] at h
      exact Or.inr ⟨String.mk root, h.symm⟩

lemma afbBindingEntry_dirList (env : EntryEnv) (r : EntryResult) (d : String)
    (h : afbBindingEntry env = some r) (hd : r.dirList = some d) :
    r = entryWithDirList env d := by
  rcases afbBindingEntry_cases env r h with hcase | ⟨root, hcase⟩
  · rw [hcase] at hd
    exact Option.noConfusion hd
  · have hdl := entryWithDirList_dirList env
      (composeDirList env.envDirList root env.bindingRootDir
        env.controlConfigPath)
    rw [hcase, entryAfterRoot] at hd ⊢
    rw [hdl] at hd
    rw [Option.some.injEq] at hd
    rw [hd]

lemma string_toList_append (a b : String) :
    (a ++ b).toList = a.toList ++ b.toList := by
  cases a
  cases b
  rfl

/-! Claim theorems. -/

/-- Claim C7: the deferred init hook resolves the configuration document it
acts on from the user data associated with the api handle, and fails with a
negative return value, executing nothing, when the handle is null or when no
document is associated with it. -/
theorem ctrlInitOneApi_reresolves_userdata :
    ∀ (exec : CtlConfigT → Int) (a : ApiHandle),
      (CtrlInitOneApi none exec = { ret := -1, executed := none } ∧
        (-1 : Int) < 0) ∧
      (a.userdata = none →
        CtrlInitOneApi (some a) exec = { ret := -2, executed := none } ∧
          (-2 : Int) < 0) ∧
      (∀ cfg, a.userdata = some cfg →
        CtrlInitOneApi (some a) exec =
          { ret := exec cfg, executed := some cfg }) := by
  intro exec a
  refine ⟨⟨rfl, by norm_num⟩, ?_, ?_⟩
  · intro h
    exact ⟨by simp [CtrlInitOneApi, h], by norm_num⟩
  · intro cfg h
    simp [CtrlInitOneApi, h]

/-- Witness for C7 at a handle carrying no document. -/
theorem ctrlInitOneApi_reresolves_userdata_witness :
    CtrlInitOneApi (some { userdata := none }) (fun _ => 7) =
        { ret := -2, executed := none } ∧
      (-2 : Int) < 0 :=
  (ctrlInitOneApi_reresolves_userdata (fun _ => 7)
    { userdata := none }).2.1 rfl

/-- Claim C8: the two built-in verbs ping-global and auth are attached, in
that order, before any section event, in every pre-init run; when the host
registers both successfully, assembly completes: the api is sealed and the
return value is the section aggregate. -/
theorem ctrlLoadOneApi_builtin_verbs_first :
    ∀ (doc : List String) (addVerb loaders : String → Int),
      (∃ rest, (CtrlLoadOneApi doc addVerb loaders).events =
          ApiEvent.addVerb "ping-global" :: ApiEvent.addVerb "auth" :: rest) ∧
      (addVerb "ping-global" = 0 → addVerb "auth" = 0 →
        (CtrlLoadOneApi doc addVerb loaders).ret =
            (CtlLoadSections doc loaders).1 ∧
          ApiEvent.seal ∈ (CtrlLoadOneApi doc addVerb loaders).events) := by
  intro doc addVerb loaders
  simp only [CtrlLoadOneApi, ctrlLoadStaticVerbs_eq]
  constructor
  · by_cases h : addVerb "ping-global" + addVerb "auth" = 0
    · rw [if_neg (not_not_intro h)]
      exact ⟨_, rfl⟩
    · rw [if_pos h]
      exact ⟨[], rfl⟩
  · intro h1 h2
    rw [h1, h2]
    simp

/-- Witness for C8 with an all-successful host and a one-section document. -/
theorem ctrlLoadOneApi_builtin_verbs_first_witness :
    (∃ rest, (CtrlLoadOneApi ["controls"] (fun _ => 0)
        (fun _ => 1)).events =
        ApiEvent.addVerb "ping-global" :: ApiEvent.addVerb "auth" :: rest) ∧
      ((CtrlLoadOneApi ["controls"] (fun _ => 0) (fun _ => 1)).ret =
          (CtlLoadSections ["controls"] (fun _ => 1)).1 ∧
        ApiEvent.seal ∈
          (CtrlLoadOneApi ["controls"] (fun _ => 0) (fun _ => 1)).events) :=
  ⟨(ctrlLoadOneApi_builtin_verbs_first ["controls"] (fun _ => 0)
      (fun _ => 1)).1,
   (ctrlLoadOneApi_builtin_verbs_first ["controls"] (fun _ => 0)
      (fun _ => 1)).2 rfl rfl⟩

/-- Claim C1 as stated is false: with a host on which static verb
registration fails (each add returns 1, so the claimed aggregate would be
2 with no section failures), the pre-init callback returns ERROR, which
differs from 2, no section is dispatched and the api is not sealed. -/
theorem ctrlLoadOneApi_claim_counterexample :
    (CtrlLoadOneApi ["controls"] (fun _ => 1) (fun _ => 0)).ret = ERROR ∧
      ERROR ≠ (2 : Int) ∧
      ApiEvent.seal ∉
        (CtrlLoadOneApi ["controls"] (fun _ => 1) (fun _ => 0)).events ∧
      ApiEvent.sectionLoad "controls" ∉
        (CtrlLoadOneApi ["controls"] (fun _ => 1) (fun _ => 0)).events := by
  decide

/-- Claim C1 (amended): when static verb registration reports zero errors,
the pre-init return value is exactly the aggregate of the dispatched section
loaders and the api is sealed whatever that aggregate is; when static verb
registration reports a nonzero count, the callback returns ERROR at once,
dispatching no section and not sealing the api. -/
theorem ctrlLoadOneApi_error_aggregation :
    ∀ (doc : List String) (addVerb loaders : String → Int),
      ((CtrlLoadStaticVerbs addVerb).1 = 0 →
        (CtrlLoadOneApi doc addVerb loaders).ret =
            (CtlLoadSections doc loaders).1 ∧
          ApiEvent.seal ∈ (CtrlLoadOneApi doc addVerb loaders).events) ∧
      ((CtrlLoadStaticVerbs addVerb).1 ≠ 0 →
        (CtrlLoadOneApi doc addVerb loaders).ret = ERROR ∧
          ApiEvent.seal ∉ (CtrlLoadOneApi doc addVerb loaders).events ∧
          ∀ k, ApiEvent.sectionLoad k ∉
            (CtrlLoadOneApi doc addVerb loaders).events) := by
  intro doc addVerb loaders
  constructor
  · intro h
    simp only [CtrlLoadOneApi]
    rw [if_neg (not_not_intro h)]
    exact ⟨rfl, by simp⟩
  · intro h
    simp only [CtrlLoadOneApi]
    rw [if_pos h]
    refine ⟨rfl, ?_, ?_⟩
    · rw [ctrlLoadStaticVerbs_eq]
      simp
    · intro k
      rw [ctrlLoadStaticVerbs_eq]
      simp

/-- Witness for C1 (amended), successful-statics branch. -/
theorem ctrlLoadOneApi_error_aggregation_witness :
    (CtrlLoadOneApi ["events"] (fun _ => 0) (fun _ => 5)).ret =
        (CtlLoadSections ["events"] (fun _ => 5)).1 ∧
      ApiEvent.seal ∈
        (CtrlLoadOneApi ["events"] (fun _ => 0) (fun _ => 5)).events :=
  (ctrlLoadOneApi_error_aggregation ["events"] (fun _ => 0)
    (fun _ => 5)).1 (by decide)

/-- Claim C4: section loaders run in the fixed table order plugins,
controls, events, onload: the dispatch trace is the table filtered by
membership in the document, the aggregate is summed in that same order, the
result depends on the document only through key membership, and only table
keys are ever dispatched. -/
theorem ctlLoadSections_table_order :
    ∀ (doc : List String) (loaders : String → Int),
      (CtlLoadSections doc loaders).2 =
          (ctrlSections.filter (fun k => k ∈ doc)).map ApiEvent.sectionLoad ∧
      (CtlLoadSections doc loaders).1 =
          ((ctrlSections.filter (fun k => k ∈ doc)).map loaders).sum ∧
      (∀ doc', (∀ k, k ∈ doc ↔ k ∈ doc') →
        CtlLoadSections doc loaders = CtlLoadSections doc' loaders) ∧
      (∀ k, ApiEvent.sectionLoad k ∈ (CtlLoadSections doc loaders).2 →
        k ∈ ctrlSections) := by
  intro doc loaders
  refine ⟨by rw [ctlLoadSections_eq], by rw [ctlLoadSections_eq], ?_, ?_⟩
  · intro doc' hiff
    rw [ctlLoadSections_eq, ctlLoadSections_eq]
    have hf : ctrlSections.filter (fun k => k ∈ doc) =
        ctrlSections.filter (fun k => k ∈ doc') := by
      apply List.filter_congr
      intro k _
      exact decide_eq_decide.mpr (hiff k)
    rw [hf]
  · intro k hk
    rw [ctlLoadSections_eq] at hk
    simp only at hk
    rw [List.mem_map] at hk
    obtain ⟨a, ha, hak⟩ := hk
    have hk2 : a = k := ApiEvent.sectionLoad.inj hak
    exact hk2 ▸ List.mem_of_mem_filter ha

/-- Witness for C4: a document listing controls before plugins (plus an
unknown key) dispatches identically to one listing plugins first. -/
theorem ctlLoadSections_table_order_witness :
    CtlLoadSections ["controls", "plugins", "foo"] (fun _ => 0) =
      CtlLoadSections ["plugins", "foo", "controls"] (fun _ => 0) :=
  (ctlLoadSections_table_order ["controls", "plugins", "foo"]
      (fun _ => 0)).2.2.1 ["plugins", "foo", "controls"]
    (by
      intro k
      simp only [List.mem_cons, List.not_mem_nil, or_false]
      tauto)

/-- Claim C2: the composed search-path string is, with an environment
override present: override list, application root, binding root dir,
compiled-in fallback; without one: binding root dir, application root,
fallback; colon separated, every source kept verbatim (no deduplication). -/
theorem entry_dirList_precedence :
    ∀ (env : EntryEnv) (rootDir : String),
      (∀ e, env.envDirList = some e →
        (entryAfterRoot env rootDir).dirList =
          some (e ++ ":" ++ rootDir ++ ":" ++ env.bindingRootDir ++ ":" ++
            env.controlConfigPath)) ∧
      (env.envDirList = none →
        (entryAfterRoot env rootDir).dirList =
          some (env.bindingRootDir ++ ":" ++ rootDir ++ ":" ++
            env.controlConfigPath)) := by
  intro env rootDir
  constructor
  · intro e he
    rw [entryAfterRoot, entryWithDirList_dirList]
    simp only [he, composeDirList]
  · intro he
    rw [entryAfterRoot, entryWithDirList_dirList]
    simp only [he, composeDirList]

/-- Witness for C2 with an override present. -/
theorem entry_dirList_precedence_witness :
    (entryAfterRoot
        { bindingPath := none, envDirList := some "/e", bindingRootDir := "/r",
          controlConfigPath := "/f", binderName := "b",
          search := fun _ => none, loadMeta := fun _ => none,
          newApiOk := fun _ => true } "/a/..").dirList =
      some ("/e" ++ ":" ++ "/a/.." ++ ":" ++ "/r" ++ ":" ++ "/f") :=
  (entry_dirList_precedence
    { bindingPath := none, envDirList := some "/e", bindingRootDir := "/r",
      controlConfigPath := "/f", binderName := "b",
      search := fun _ => none, loadMeta := fun _ => none,
      newApiOk := fun _ => true } "/a/..").1 "/e" rfl

/-- Claim C5: when the configuration search finds nothing in the composed
directory list, the entry returns ERROR, the host receives no API-creation
request, and the emitted diagnostic names the full composed list, whose
rendering contains that list verbatim. -/
theorem entry_search_none_aborts :
    ∀ (env : EntryEnv) (r : EntryResult) (d : String),
      afbBindingEntry env = some r → r.dirList = some d →
      env.search d = none →
      r.ret = ERROR ∧ r.apiRequested = false ∧
        Diag.notFound env.binderName d ∈ r.diags ∧
        ∃ fore aft, (Diag.notFound env.binderName d).render.toList =
          fore ++ d.toList ++ aft := by
  intro env r d h hd hs
  have hr := afbBindingEntry_dirList env r d h hd
  have hres : entryWithDirList env d =
      { ret := ERROR, dirList := some d,
        diags := [Diag.notFound env.binderName d], apiRequested := false } := by
    unfold entryWithDirList
    rw [hs]
  rw [hr, hres]
  refine ⟨rfl, rfl, by simp, ?_⟩
  refine ⟨("CtlPreInit: No " ++ env.binderName ++ "* config found in ").toList,
    " ".toList, ?_⟩
  simp only [Diag.render, string_toList_append, List.append_assoc]

/-- Witness for C5 with an empty search over three directories. -/
theorem entry_search_none_aborts_witness :
    (entryWithDirList
          { bindingPath := none, envDirList := none, bindingRootDir := "/r",
            controlConfigPath := "/f", binderName := "b",
            search := fun _ => none, loadMeta := fun _ => none,
            newApiOk := fun _ => true } "/r::/f").ret = ERROR ∧
      (entryWithDirList
          { bindingPath := none, envDirList := none, bindingRootDir := "/r",
            controlConfigPath := "/f", binderName := "b",
            search := fun _ => none, loadMeta := fun _ => none,
            newApiOk := fun _ => true } "/r::/f").apiRequested = false ∧
      Diag.notFound "b" "/r::/f" ∈
        (entryWithDirList
          { bindingPath := none, envDirList := none, bindingRootDir := "/r",
            controlConfigPath := "/f", binderName := "b",
            search := fun _ => none, loadMeta := fun _ => none,
            newApiOk := fun _ => true } "/r::/f").diags ∧
      ∃ fore aft, (Diag.notFound "b" "/r::/f").render.toList =
        fore ++ "/r::/f".toList ++ aft :=
  entry_search_none_aborts
    { bindingPath := none, envDirList := none, bindingRootDir := "/r",
      controlConfigPath := "/f", binderName := "b",
      search := fun _ => none, loadMeta := fun _ => none,
      newApiOk := fun _ => true }
    (entryWithDirList
      { bindingPath := none, envDirList := none, bindingRootDir := "/r",
        controlConfigPath := "/f", binderName := "b",
        search := fun _ => none, loadMeta := fun _ => none,
        newApiOk := fun _ => true } "/r::/f")
    "/r::/f" rfl rfl rfl

/-- Claim C6: a metadata load returning no document and a document whose api
name field is null both make the entry return ERROR with no API-creation
request, and the two conditions yield diagnostics that differ both as
structured values and as rendered messages. -/
theorem entry_meta_errors_fatal_distinct :
    (∀ (env : EntryEnv) (r : EntryResult) (d c : String),
      afbBindingEntry env = some r → r.dirList = some d →
      env.search d = some c → env.loadMeta c = none →
      r.ret = ERROR ∧ r.apiRequested = false ∧
        r.diags = [Diag.invalidConfig c]) ∧
    (∀ (env : EntryEnv) (r : EntryResult) (d c : String) (cfg : CtlConfigT),
      afbBindingEntry env = some r → r.dirList = some d →
      env.search d = some c → env.loadMeta c = some cfg → cfg.api = none →
      r.ret = ERROR ∧ r.apiRequested = false ∧
        r.diags = [Diag.apiMissing c]) ∧
    (∀ p q, Diag.invalidConfig p ≠ Diag.apiMissing q) ∧
    (∀ p q, (Diag.invalidConfig p).render ≠ (Diag.apiMissing q).render) := by
  refine ⟨?_, ?_, ?_, ?_⟩
  · intro env r d c h hd hs hm
    have hr := afbBindingEntry_dirList env r d h hd
    have hres : entryWithDirList env d =
        { ret := ERROR, dirList := some d,
          diags := [Diag.invalidConfig c], apiRequested := false } := by
      simp only [entryWithDirList, hs, hm]
    rw [hr, hres]
    exact ⟨rfl, rfl, rfl⟩
  · intro env r d c cfg h hd hs hm hapi
    have hr := afbBindingEntry_dirList env r d h hd
    have hres : entryWithDirList env d =
        { ret := ERROR, dirList := some d,
          diags := [Diag.apiMissing c], apiRequested := false } := by
      simp only [entryWithDirList, hs, hm, hapi]
    rw [hr, hres]
    exact ⟨rfl, rfl, rfl⟩
  · intro p q h
    exact Diag.noConfusion h
  · intro p q h
    have hd : ((Diag.invalidConfig p).render).toList =
        ((Diag.apiMissing q).render).toList := by rw [h]
    simp only [Diag.render, string_toList_append] at hd
    have h1 : ("No valid control config file in:\n-- ".toList ++
        p.toList).head? = some 'N' := rfl
    have h2 : ("API Missing from metadata in:\n-- ".toList ++
        q.toList).head? = some 'A' := rfl
    rw [hd, h2] at h1
    exact absurd h1 (by decide)

/-- Witness for C6: a parse-failing load aborts, and the two rendered
diagnostics differ on a concrete pair of paths. -/
theorem entry_meta_errors_fatal_distinct_witness :
    ((entryWithDirList
          { bindingPath := none, envDirList := none, bindingRootDir := "/r",
            controlConfigPath := "/f", binderName := "b",
            search := fun _ => some "/r/b.json", loadMeta := fun _ => none,
            newApiOk := fun _ => true } "/r::/f").ret = ERROR ∧
      (entryWithDirList
          { bindingPath := none, envDirList := none, bindingRootDir := "/r",
            controlConfigPath := "/f", binderName := "b",
            search := fun _ => some "/r/b.json", loadMeta := fun _ => none,
            newApiOk := fun _ => true } "/r::/f").apiRequested = false ∧
      (entryWithDirList
          { bindingPath := none, envDirList := none, bindingRootDir := "/r",
            controlConfigPath := "/f", binderName := "b",
            search := fun _ => some "/r/b.json", loadMeta := fun _ => none,
            newApiOk := fun _ => true } "/r::/f").diags =
        [Diag.invalidConfig "/r/b.json"]) ∧
      (Diag.invalidConfig "/r/b.json").render ≠
        (Diag.apiMissing "/r/b.json").render :=
  ⟨entry_meta_errors_fatal_distinct.1
      { bindingPath := none, envDirList := none, bindingRootDir := "/r",
        controlConfigPath := "/f", binderName := "b",
        search := fun _ => some "/r/b.json", loadMeta := fun _ => none,
        newApiOk := fun _ => true }
      (entryWithDirList
        { bindingPath := none, envDirList := none, bindingRootDir := "/r",
          controlConfigPath := "/f", binderName := "b",
          search := fun _ => some "/r/b.json", loadMeta := fun _ => none,
          newApiOk := fun _ => true } "/r::/f")
      "/r::/f" "/r/b.json" rfl rfl rfl rfl,
   entry_meta_errors_fatal_distinct.2.2.2 "/r/b.json" "/r/b.json"⟩

/-- Claim C3 as stated is false: the binding path /ab has only 2 characters
after its last separator, yet the entry does not report a malformed-path
error: composition proceeds on the derived root /.. and a fully successful
load returns 0. The check in the source counts the separator itself, so it
only rejects suffixes of fewer than 3 characters counted from the slash. -/
theorem entry_short_suffix_counterexample :
    rindexSplit "/ab".toList = some ([], '/' :: "ab".toList) ∧
      ("ab".toList).length < 3 ∧
      afbBindingEntry
          { bindingPath := some "/ab", envDirList := none,
            bindingRootDir := "/r", controlConfigPath := "/f",
            binderName := "b", search := fun _ => some "/cfg.json",
            loadMeta := fun _ => some { api := some "demo", info := "" },
            newApiOk := fun _ => true } =
        some { ret := 0, dirList := some "/r:/..:/f", diags := [],
               apiRequested := true } ∧
      (0 : Int) ≠ ERROR := by
  refine ⟨by decide, by decide, ?_, by decide⟩
  rfl

/-- Claim C3 (amended): the entry reports the malformed-path error, with no
composition, no diagnostic and no API request, exactly when the portion of
the binding path counted from its last separator (separator included) has
fewer than 3 characters, that is when fewer than 2 characters follow the
separator. -/
theorem entry_short_suffix_error :
    ∀ (env : EntryEnv) (p : String) (pre suf : List Char),
      env.bindingPath = some p → rindexSplit p.toList = some (pre, suf) →
      suf.length < 3 →
      afbBindingEntry env =
        some { ret := ERROR, dirList := none, diags := [],
               apiRequested := false } := by
  intro env p pre suf hbp hsplit hlen
  have hds : deriveRootDir p.toList = RootDir.tooShort := by
    simp only [deriveRootDir, hsplit]
    rw [if_pos hlen]
  unfold afbBindingEntry
  simp only [hbp, hds]

/-- Witness for C3 (amended) at the binding path /a. -/
theorem entry_short_suffix_error_witness :
    afbBindingEntry
        { bindingPath := some "/a", envDirList := none,
          bindingRootDir := "/r", controlConfigPath := "/f",
          binderName := "b", search := fun _ => some "/cfg.json",
          loadMeta := fun _ => some { api := some "demo", info := "" },
          newApiOk := fun _ => true } =
      some { ret := ERROR, dirList := none, diags := [],
             apiRequested := false } :=
  entry_short_suffix_error
    { bindingPath := some "/a", envDirList := none,
      bindingRootDir := "/r", controlConfigPath := "/f",
      binderName := "b", search := fun _ => some "/cfg.json",
      loadMeta := fun _ => some { api := some "demo", info := "" },
      newApiOk := fun _ => true }
    "/a" [] ['/', 'a'] rfl (by decide) (by decide)

/-- Claim C9: the last-slash position is used with no null check; for a
binding path with a slash whose suffix counted from that slash has at least
3 characters the derivation terminates with the prefix up to and including
the last slash followed by two dots, and for a path with no slash at all
the null branch is reached and the entry computation is not defined. -/
theorem deriveRootDir_slash_behaviour :
    (∀ p : List Char, '/' ∉ p → deriveRootDir p = RootDir.ub) ∧
    (∀ (p pre suf : List Char), rindexSplit p = some (pre, suf) →
      3 ≤ suf.length →
      deriveRootDir p = RootDir.ok (pre ++ ['/', '.', '.']) ∧
        p = pre ++ suf ∧ ∃ t, suf = '/' :: t ∧ '/' ∉ t) ∧
    (∀ (env : EntryEnv) (q : String), env.bindingPath = some q →
      '/' ∉ q.toList → afbBindingEntry env = none) := by
  refine ⟨?_, ?_, ?_⟩
  · intro p hp
    have hn : rindexSplit p = none := (rindexSplit_none_iff p).mpr hp
    simp only [deriveRootDir, hn]
  · intro p pre suf hsplit hlen
    obtain ⟨hp, t, ht, hnt⟩ := rindexSplit_spec p pre suf hsplit
    refine ⟨?_, hp, t, ht, hnt⟩
    simp only [deriveRootDir, hsplit]
    rw [if_neg (by omega)]
    rw [ht]
    simp [List.take]
  · intro env q hbp hq
    have hn : rindexSplit q.toList = none := (rindexSplit_none_iff _).mpr hq
    have hds : deriveRootDir q.toList = RootDir.ub := by
      simp only [deriveRootDir, hn]
    unfold afbBindingEntry
    simp only [hbp, hds]

/-- Witness for C9 on the path /abc. -/
theorem deriveRootDir_slash_behaviour_witness :
    deriveRootDir ['/', 'a', 'b', 'c'] = RootDir.ok ([] ++ ['/', '.', '.']) ∧
      ['/', 'a', 'b', 'c'] = [] ++ ['/', 'a', 'b', 'c'] ∧
      ∃ t, ['/', 'a', 'b', 'c'] = '/' :: t ∧ '/' ∉ t :=
  deriveRootDir_slash_behaviour.2.1 ['/', 'a', 'b', 'c'] []
    ['/', 'a', 'b', 'c'] (by decide) (by decide)

/-- Claim C10: with no binding-path entry in the settings the entry does not
fail at the application-root step: the root becomes the empty string and the
composed list carries an empty segment at the application-root position, so
the composed string contains two adjacent colons. -/
theorem entry_no_binding_path_empty_segment :
    ∀ (env : EntryEnv) (r : EntryResult),
      env.bindingPath = none → afbBindingEntry env = some r →
      ∃ d, r.dirList = some d ∧
        (∀ e, env.envDirList = some e →
          d = e ++ ":" ++ "" ++ ":" ++ env.bindingRootDir ++ ":" ++
            env.controlConfigPath) ∧
        (env.envDirList = none →
          d = env.bindingRootDir ++ ":" ++ "" ++ ":" ++
            env.controlConfigPath) ∧
        ∃ fore aft, d.toList = fore ++ [':', ':'] ++ aft := by
  intro env r hbp h
  unfold afbBindingEntry at h
  simp only [hbp, Option.some.injEq] at h
  subst h
  refine ⟨composeDirList env.envDirList "" env.bindingRootDir
    env.controlConfigPath, ?_, ?_, ?_, ?_⟩
  · rw [entryAfterRoot, entryWithDirList_dirList]
  · intro e he
    simp only [he, composeDirList]
  · intro he
    simp only [he, composeDirList]
  · cases he : env.envDirList with
    | some e =>
      refine ⟨e.toList,
        (env.bindingRootDir ++ ":" ++ env.controlConfigPath).toList, ?_⟩
      simp only [he, composeDirList, string_toList_append, List.append_assoc]
      rfl
    | none =>
      refine ⟨env.bindingRootDir.toList, env.controlConfigPath.toList, ?_⟩
      simp only [he, composeDirList, string_toList_append, List.append_assoc]
      rfl

/-- Witness for C10 on a concrete settings object with no binding path. -/
theorem entry_no_binding_path_empty_segment_witness :
    ∃ d, (entryAfterRoot
        { bindingPath := none, envDirList := none, bindingRootDir := "/r",
          controlConfigPath := "/f", binderName := "b",
          search := fun _ => none, loadMeta := fun _ => none,
          newApiOk := fun _ => true } "").dirList = some d ∧
      (∀ e, (none : Option String) = some e →
        d = e ++ ":" ++ "" ++ ":" ++ "/r" ++ ":" ++ "/f") ∧
      ((none : Option String) = none →
        d = "/r" ++ ":" ++ "" ++ ":" ++ "/f") ∧
      ∃ fore aft, d.toList = fore ++ [':', ':'] ++ aft :=
  entry_no_binding_path_empty_segment
    { bindingPath := none, envDirList := none, bindingRootDir := "/r",
      controlConfigPath := "/f", binderName := "b",
      search := fun _ => none, loadMeta := fun _ => none,
      newApiOk := fun _ => true }
    (entryAfterRoot
      { bindingPath := none, envDirList := none, bindingRootDir := "/r",
        controlConfigPath := "/f", binderName := "b",
        search := fun _ => none, loadMeta := fun _ => none,
        newApiOk := fun _ => true } "")
    rfl rfl
